import Mathlib

/-!
Verification development for the posterior-predictive summarization logic of
`pystan_tutorial_1.py` (both the top-level script and its `2019-01-14` draft).

The scripts extract posterior draws of a linear model (columns `alpha`
(intercept), `beta` (slope), `sigma` (noise scale)) into a pandas DataFrame
`stan_results`, copy it into `pred_df_stan`, and for each query point
`x ∈ range(0, 6)` compute the per-draw prediction `alpha + beta * x` and its
empirical quantiles at 0.025, 0.5 and 0.975 (pandas linear interpolation),
writing them into the `summary_stan` DataFrame via `.loc` cell assignment.

Real numbers are embedded as rationals `ℚ`; pandas missing values (`NaN`
cells of a freshly declared column) as `Option ℚ` with `none` for missing.
-/

namespace PystanTutorial

/-- One posterior draw, a row of `stan_results`: columns `alpha` (intercept),
`beta` (slope), `sigma` (noise scale; unused by the summarization loop). -/
structure Draw where
  alpha : ℚ
  beta : ℚ
  sigma : ℚ
deriving DecidableEq

/-- Linear interpolation between order statistics of an already sorted list
`s` at fractional position `h`: with `i = ⌊h⌋`, the value
`s[i] + (h - ⌊h⌋) * (s[i+1] - s[i])` (the out-of-range slot `s[i+1]` at the
very top defaults to `s[i]`, where the fractional part is zero anyway). -/
def interp (s : List ℚ) (h : ℚ) : ℚ :=
  s.getD (Int.floor h).toNat 0 +
    (h - Int.floor h) *
      (s.getD ((Int.floor h).toNat + 1) (s.getD (Int.floor h).toNat 0) -
        s.getD (Int.floor h).toNat 0)

/-- Shallow embedding of `pandas.Series.quantile(q=p)` with the default
`interpolation='linear'`: sort the values, take the fractional position
`p * (n - 1)` and linearly interpolate between the adjacent order
statistics. -/
def quantile (l : List ℚ) (p : ℚ) : ℚ :=
  let s := List.insertionSort (· ≤ ·) l
  interp s (p * ((l.length : ℚ) - 1))

/-- The per-draw predictions at query point `x`: the column
`pred_df_stan[f"y_{x}"] = pred_df_stan["alpha"] + pred_df_stan["beta"] * x`
of the summarization loop, one value per posterior draw. -/
def predSamples (draws : List Draw) (x : ℚ) : List ℚ :=
  draws.map fun d => d.alpha + d.beta * x

/-- One iteration of the summarization loop, as the produced row of
`summary_stan`: the quantiles of `predSamples` at 0.025, 0.5 and 0.975
(written by the scripts into the cells `y_025`, `y_500`, `y_975`). -/
def summaryRow (draws : List Draw) (x : ℚ) : ℚ × ℚ × ℚ :=
  (quantile (predSamples draws x) (25/1000),
   quantile (predSamples draws x) (5/10),
   quantile (predSamples draws x) (975/1000))

/-! ### Order lemmas about `interp` and `quantile` -/

/-- On a `≤`-sorted list, `getD` at in-range indices is monotone in the
index, whatever the defaults. -/
theorem sorted_getD_le {s : List ℚ} (hs : s.Sorted (· ≤ ·)) {i j : ℕ} (d e : ℚ)
    (hij : i ≤ j) (hj : j < s.length) : s.getD i d ≤ s.getD j e := by
  have hi : i < s.length := lt_of_le_of_lt hij hj
  rw [List.getD_eq_get _ _ hi, List.getD_eq_get _ _ hj]
  exact hs.rel_get_of_le (Fin.mk_le_mk.mpr hij)

/-- The interpolated value sits between the two order statistics it
interpolates. -/
theorem interp_bounds {s : List ℚ} (hs : s.Sorted (· ≤ ·)) {h : ℚ}
    (h0 : 0 ≤ h) (hlt : (Int.floor h).toNat < s.length) :
    s.getD (Int.floor h).toNat 0 ≤ interp s h ∧
      interp s h ≤ s.getD ((Int.floor h).toNat + 1) (s.getD (Int.floor h).toNat 0) := by
  have hΔ : s.getD (Int.floor h).toNat 0 ≤
      s.getD ((Int.floor h).toNat + 1) (s.getD (Int.floor h).toNat 0) := by
    rcases lt_or_le ((Int.floor h).toNat + 1) s.length with hr | hr
    · exact sorted_getD_le hs _ _ (Nat.le_succ _) hr
    · rw [List.getD_eq_default _ _ hr]
  have hg0 : 0 ≤ h - Int.floor h := by
    have := Int.floor_le h
    linarith
  have hg1 : h - Int.floor h ≤ 1 := by
    have := Int.lt_floor_add_one h
    push_cast at this ⊢
    linarith
  constructor
  · have hnn : 0 ≤ (h - Int.floor h) *
        (s.getD ((Int.floor h).toNat + 1) (s.getD (Int.floor h).toNat 0) -
          s.getD (Int.floor h).toNat 0) :=
      mul_nonneg hg0 (by linarith)
    unfold interp
    linarith
  · have hub : (h - Int.floor h) *
        (s.getD ((Int.floor h).toNat + 1) (s.getD (Int.floor h).toNat 0) -
          s.getD (Int.floor h).toNat 0) ≤
        1 * (s.getD ((Int.floor h).toNat + 1) (s.getD (Int.floor h).toNat 0) -
          s.getD (Int.floor h).toNat 0) :=
      mul_le_mul_of_nonneg_right hg1 (by linarith)
    unfold interp
    linarith

/-- Monotonicity of the interpolated order statistic in the fractional
position, on a sorted list. -/
theorem interp_mono {s : List ℚ} (hs : s.Sorted (· ≤ ·)) {h1 h2 : ℚ}
    (h10 : 0 ≤ h1) (h12 : h1 ≤ h2) (h2n : h2 ≤ (s.length : ℚ) - 1) :
    interp s h1 ≤ interp s h2 := by
  have h20 : 0 ≤ h2 := le_trans h10 h12
  have hn1 : 1 ≤ s.length := by
    by_contra hcon
    interval_cases hlen : s.length
    · push_cast at h2n
      linarith
  have hf1 : ((Int.floor h1).toNat : ℤ) = Int.floor h1 :=
    Int.toNat_of_nonneg (Int.floor_nonneg.mpr h10)
  have hf2 : ((Int.floor h2).toNat : ℤ) = Int.floor h2 :=
    Int.toNat_of_nonneg (Int.floor_nonneg.mpr h20)
  have hfloor2 : Int.floor h2 ≤ (s.length : ℤ) - 1 := by
    have hcast : ((s.length : ℚ) - 1) = (((s.length : ℤ) - 1 : ℤ) : ℚ) := by push_cast; ring
    have := Int.floor_mono h2n
    rwa [hcast, Int.floor_intCast] at this
  have hi2n : (Int.floor h2).toNat < s.length := by omega
  have hi12 : (Int.floor h1).toNat ≤ (Int.floor h2).toNat :=
    Int.toNat_le_toNat (Int.floor_mono h12)
  rcases eq_or_lt_of_le hi12 with heq | hlt
  · have hfl : Int.floor h1 = Int.floor h2 := by omega
    have hΔ : s.getD (Int.floor h2).toNat 0 ≤
        s.getD ((Int.floor h2).toNat + 1) (s.getD (Int.floor h2).toNat 0) := by
      rcases lt_or_le ((Int.floor h2).toNat + 1) s.length with hr | hr
      · exact sorted_getD_le hs _ _ (Nat.le_succ _) hr
      · rw [List.getD_eq_default _ _ hr]
    unfold interp
    rw [heq, hfl]
    have hg : h1 - Int.floor h2 ≤ h2 - Int.floor h2 := by linarith
    have := mul_le_mul_of_nonneg_right hg (by linarith :
      (0:ℚ) ≤ s.getD ((Int.floor h2).toNat + 1) (s.getD (Int.floor h2).toNat 0) -
        s.getD (Int.floor h2).toNat 0)
    linarith
  · have hi1n : (Int.floor h1).toNat < s.length := lt_trans hlt hi2n
    have hub := (interp_bounds hs h10 hi1n).2
    have hlb := (interp_bounds hs h20 hi2n).1
    have hmid : s.getD ((Int.floor h1).toNat + 1) (s.getD (Int.floor h1).toNat 0) ≤
        s.getD (Int.floor h2).toNat 0 :=
      sorted_getD_le hs _ _ (by omega) hi2n
    linarith

/-- Monotonicity of `quantile` in the probability, for a non-empty sample. -/
theorem quantile_mono {l : List ℚ} (hl : l ≠ []) {p q : ℚ}
    (hp : 0 ≤ p) (hpq : p ≤ q) (hq : q ≤ 1) : quantile l p ≤ quantile l q := by
  have hn : 1 ≤ l.length := List.length_pos.mpr hl
  have hn1 : (0:ℚ) ≤ (l.length : ℚ) - 1 := by
    have : (1:ℚ) ≤ (l.length : ℚ) := by exact_mod_cast hn
    linarith
  unfold quantile
  apply interp_mono (List.sorted_insertionSort _ l)
  · exact mul_nonneg hp hn1
  · exact mul_le_mul_of_nonneg_right hpq hn1
  · rw [List.length_insertionSort]
    nlinarith

/-! ### The spec's wording of the quantile estimator -/

/-- The estimator as the spec words it: for a sorted sample of size `n` and
probability `p`, `index = p * (n - 1)`; if the index is an integer take that
order statistic, and if it falls between two integers interpolate linearly
between the two adjacent order statistics. Ties in values are retained (the
whole sample is sorted, nothing is deduplicated). Stated over the raw sample
list to compare with `quantile`. -/
def specQuantile (l : List ℚ) (p : ℚ) : ℚ :=
  let s := List.insertionSort (· ≤ ·) l
  let idx : ℚ := p * ((l.length : ℚ) - 1)
  if ((Int.floor idx : ℤ) : ℚ) = idx then s.getD (Int.floor idx).toNat 0
  else
    s.getD (Int.floor idx).toNat 0 +
      (idx - Int.floor idx) *
        (s.getD ((Int.floor idx).toNat + 1) 0 - s.getD (Int.floor idx).toNat 0)

/-- For a non-empty sample and a probability in `[0,1]`, the code's
quantile (pandas linear interpolation) agrees with the spec's wording. -/
theorem quantile_eq_specQuantile {l : List ℚ} (hl : l ≠ []) {p : ℚ}
    (hp0 : 0 ≤ p) (hp1 : p ≤ 1) : quantile l p = specQuantile l p := by
  have hn : 1 ≤ l.length := List.length_pos.mpr hl
  have hn1 : (0:ℚ) ≤ (l.length : ℚ) - 1 := by
    have : (1:ℚ) ≤ (l.length : ℚ) := by exact_mod_cast hn
    linarith
  have hh0 : 0 ≤ p * ((l.length : ℚ) - 1) := mul_nonneg hp0 hn1
  have hhn : p * ((l.length : ℚ) - 1) ≤ (l.length : ℚ) - 1 := by nlinarith
  have hslen : (List.insertionSort (· ≤ ·) l).length = l.length :=
    List.length_insertionSort _ l
  simp only [quantile, specQuantile, interp]
  by_cases hint : ((Int.floor (p * ((l.length : ℚ) - 1)) : ℤ) : ℚ) = p * ((l.length : ℚ) - 1)
  · rw [if_pos hint]
    have hz : p * ((l.length : ℚ) - 1) -
        ((Int.floor (p * ((l.length : ℚ) - 1)) : ℤ) : ℚ) = 0 := by
      rw [hint]
      ring
    rw [hz]
    ring
  · rw [if_neg hint]
    have hfle : ((Int.floor (p * ((l.length : ℚ) - 1)) : ℤ) : ℚ) ≤
        p * ((l.length : ℚ) - 1) := Int.floor_le _
    have hflo : ((Int.floor (p * ((l.length : ℚ) - 1)) : ℤ) : ℚ) <
        (l.length : ℚ) - 1 :=
      lt_of_lt_of_le (lt_of_le_of_ne hfle hint) hhn
    have hfloz : Int.floor (p * ((l.length : ℚ) - 1)) < (l.length : ℤ) - 1 := by
      have hcast : ((l.length : ℚ) - 1) = (((l.length : ℤ) - 1 : ℤ) : ℚ) := by
        push_cast
        ring
      rw [hcast] at hflo
      exact_mod_cast hflo
    have hfnn : 0 ≤ Int.floor (p * ((l.length : ℚ) - 1)) :=
      Int.floor_nonneg.mpr hh0
    have hi1 : (Int.floor (p * ((l.length : ℚ) - 1))).toNat + 1 <
        (List.insertionSort (· ≤ ·) l).length := by
      rw [hslen]
      omega
    rw [List.getD_eq_getElem _ _ hi1, List.getD_eq_getElem _ _ hi1]

/-! ### The spec's `summarize` contract -/

/-- Error taxonomy of the spec's `summarize` contract. -/
inductive SummarizeError where
  | InvalidInput
deriving DecidableEq

/-- The per-query-point row produced at coverage `c`: quantiles of the
predictive samples at the lower tail `(1-c)/2`, at `1/2`, and at the upper
tail `1-(1-c)/2`. -/
def summarizeRow (draws : List Draw) (c : ℚ) (x : ℚ) : ℚ × ℚ × ℚ :=
  (quantile (predSamples draws x) ((1 - c) / 2),
   quantile (predSamples draws x) (1/2),
   quantile (predSamples draws x) (1 - (1 - c) / 2))

/-- Modelled from the spec: the `summarize(draws, query_points, coverage)`
contract of the spec's component design. The scripts contain no such
function — they hard-code coverage 0.95 (quantile probabilities 0.025, 0.5,
0.975) and perform no input validation, so the `coverage` parameter and the
`InvalidInput` checks exist only in the spec's words. Validation happens
before any computation; on success a full table is produced, one row per
query point in order. -/
def summarize (draws : List Draw) (queryPoints : List ℚ) (coverage : ℚ) :
    Except SummarizeError (List (ℚ × ℚ × ℚ)) :=
  if draws.isEmpty then .error .InvalidInput
  else if coverage ≤ 0 ∨ 1 ≤ coverage then .error .InvalidInput
  else .ok (queryPoints.map (summarizeRow draws coverage))

/-- The spec's wording of the whole reduction at the scripts' coverage: one
row per query point, in query-point order, of the spec-worded quantiles of
the predictive samples at probabilities 0.025, 0.5 and 0.975. -/
def specSummaryTable (draws : List Draw) (queryPoints : List ℚ) :
    List (ℚ × ℚ × ℚ) :=
  queryPoints.map fun x =>
    (specQuantile (draws.map fun d => d.alpha + d.beta * x) (25/1000),
     specQuantile (draws.map fun d => d.alpha + d.beta * x) (5/10),
     specQuantile (draws.map fun d => d.alpha + d.beta * x) (975/1000))

/-! ### A small pandas model: DataFrames as ordered columns of optional cells -/

/-- A pandas column: one optional value (`none` = `NaN`, missing) per row. -/
abbrev Col := List (Option ℚ)

/-- A DataFrame: named columns in order. Every frame the scripts build here
carries a `range(0, nrows)` index, so a row is just a list position. -/
abbrev DFrame := List (String × Col)

/-- Reading `df[c]`, with the empty column for an absent name (the scripts
only read columns they created). -/
def getColD (df : DFrame) (c : String) : Col :=
  (df.lookup c).getD []

/-- Column assignment `df[c] = col`: replaced in place when the name exists,
appended as a new last column otherwise (pandas semantics). -/
def setCol (df : DFrame) (c : String) (v : Col) : DFrame :=
  if df.any (fun q => q.1 == c) then
    df.map fun q => if q.1 == c then (q.1, v) else q
  else df ++ [(c, v)]

/-- Cell assignment `df.loc[row, c] = v` on a frame of `nrows` rows: sets
the cell when the column exists, otherwise creates the column filled with
missing values and sets the one cell (pandas `.loc` enlargement). -/
def locSet (nrows : ℕ) (df : DFrame) (row : ℕ) (c : String) (v : ℚ) : DFrame :=
  if df.any (fun q => q.1 == c) then
    df.map fun q => if q.1 == c then (q.1, q.2.set row (some v)) else q
  else df ++ [(c, (List.replicate nrows (none : Option ℚ)).set row (some v))]

/-- Elementwise combination of two cells (pandas propagates missing). -/
def opt2 (f : ℚ → ℚ → ℚ) : Option ℚ → Option ℚ → Option ℚ
  | some a, some b => some (f a b)
  | _, _ => none

/-- Elementwise binary operation on two columns. -/
def colBin (f : ℚ → ℚ → ℚ) (a b : Col) : Col :=
  List.zipWith (opt2 f) a b

/-- `Series.quantile(q=p)`: pandas drops missing values, then interpolates
between order statistics. -/
def seriesQuantile (col : Col) (p : ℚ) : ℚ :=
  quantile (col.filterMap id) p

/-- `stan_results` as a DataFrame (columns `alpha`, `beta`, `sigma`); also
the initial `pred_df_stan = stan_results.copy()`. -/
def dfOfDraws (draws : List Draw) : DFrame :=
  [("alpha", draws.map fun d => some d.alpha),
   ("beta", draws.map fun d => some d.beta),
   ("sigma", draws.map fun d => some d.sigma)]

/-- `summary_stan = pd.DataFrame(columns=["y_025", "y_50", "y_975"],
index=range(0, 6))`: three declared columns, six rows, every cell missing. -/
def summaryInit : DFrame :=
  [("y_025", List.replicate 6 (none : Option ℚ)),
   ("y_50", List.replicate 6 (none : Option ℚ)),
   ("y_975", List.replicate 6 (none : Option ℚ))]

/-- The script's state across the summarization section: the extracted
samples `stan_results`, the working copy `pred_df_stan`, and
`summary_stan`. -/
structure ScriptState where
  stan_results : List Draw
  pred_df_stan : DFrame
  summary_stan : DFrame
deriving DecidableEq

/-- One iteration of `for x in range(0, 6)` over a draw table of `n` rows:
`pred_df_stan["x"] = x` (scalar broadcast);
`pred_df_stan[f"y_{x}"] = pred_df_stan["alpha"] + pred_df_stan["beta"] * pred_df_stan["x"]`;
then the three `.loc[x, ...]` quantile writes into `summary_stan` at the
labels `y_025`, `y_500`, `y_975`. -/
def stepX (n : ℕ) (st : ScriptState) (x : ℕ) : ScriptState :=
  let pdf1 := setCol st.pred_df_stan "x" (List.replicate n (some (x : ℚ)))
  let pdf2 := setCol pdf1 ("y_" ++ toString x)
    (colBin (· + ·) (getColD pdf1 "alpha")
      (colBin (· * ·) (getColD pdf1 "beta") (getColD pdf1 "x")))
  let s1 := locSet 6 st.summary_stan x "y_025"
    (seriesQuantile (getColD pdf2 ("y_" ++ toString x)) (25/1000))
  let s2 := locSet 6 s1 x "y_500"
    (seriesQuantile (getColD pdf2 ("y_" ++ toString x)) (5/10))
  let s3 := locSet 6 s2 x "y_975"
    (seriesQuantile (getColD pdf2 ("y_" ++ toString x)) (975/1000))
  { stan_results := st.stan_results, pred_df_stan := pdf2, summary_stan := s3 }

/-- The whole summarization loop, from
`pred_df_stan = stan_results.copy()` and the declared `summary_stan`. -/
def runSummary (draws : List Draw) : ScriptState :=
  (List.range 6).foldl (stepX draws.length) ⟨draws, dfOfDraws draws, summaryInit⟩

/-- The two lines after the loop:
`summary_stan["ci_lower_diff"] = summary_stan["y_025"] - summary_stan["y_500"]`
and
`summary_stan["ci_upper_diff"] = summary_stan["y_500"] - summary_stan["y_975"]`. -/
def summaryWithCI (draws : List Draw) : DFrame :=
  let s0 := (runSummary draws).summary_stan
  let s1 := setCol s0 "ci_lower_diff"
    (colBin (· - ·) (getColD s0 "y_025") (getColD s0 "y_500"))
  setCol s1 "ci_upper_diff"
    (colBin (· - ·) (getColD s1 "y_500") (getColD s1 "y_975"))

/-- The centre series handed to `plt.errorbar`: `summary_stan["y_500"]`. -/
def errorbarCenters (draws : List Draw) : Col :=
  getColD (summaryWithCI draws) "y_500"

/-- The column of quantiles the loop produces at probability `p`: the values
`quantile(predSamples(x), p)` for the query points `x = 0..5` in order. -/
def loopQuantCol (draws : List Draw) (p : ℚ) : Col :=
  [some (quantile (predSamples draws 0) p),
   some (quantile (predSamples draws 1) p),
   some (quantile (predSamples draws 2) p),
   some (quantile (predSamples draws 3) p),
   some (quantile (predSamples draws 4) p),
   some (quantile (predSamples draws 5) p)]

/-! ### Evaluating the loop's DataFrame states -/

/-- Adding a column to a column-wise broadcast scalar: `series + scalar`
style elementwise combination against a constant column. -/
theorem colBin_map_replicate (f : ℚ → ℚ → ℚ) (L : List Draw) (g : Draw → ℚ) (a : ℚ) :
    colBin f (L.map fun d => some (g d)) (List.replicate L.length (some a)) =
      L.map fun d => some (f (g d) a) := by
  induction L with
  | nil => rfl
  | cons d t ih => simpa [colBin, opt2, List.replicate] using ih

/-- Elementwise combination of two fully-present columns over the same
rows. -/
theorem colBin_map_map (f : ℚ → ℚ → ℚ) (L : List Draw) (g h : Draw → ℚ) :
    colBin f (L.map fun d => some (g d)) (L.map fun d => some (h d)) =
      L.map fun d => some (f (g d) (h d)) := by
  induction L with
  | nil => rfl
  | cons d t ih => simpa [colBin, opt2] using ih

/-- Dropping the missing values of a fully-present column. -/
theorem filterMap_id_map_some (L : List Draw) (g : Draw → ℚ) :
    (L.map fun d => some (g d)).filterMap id = L.map g := by
  induction L with
  | nil => rfl
  | cons d t ih => simpa [List.filterMap_cons] using ih

set_option maxHeartbeats 2000000 in
/-- Closed form of `summary_stan` after the loop: the declared `y_50` column
is never written (it stays entirely missing), the computed medians live in a
fourth, loc-created `y_500` column, and `y_025`/`y_975` hold the tail
quantiles, one row per query point `0..5` in order. -/
theorem runSummary_summary_stan (draws : List Draw) :
    (runSummary draws).summary_stan =
      [("y_025", loopQuantCol draws (25/1000)),
       ("y_50", List.replicate 6 (none : Option ℚ)),
       ("y_975", loopQuantCol draws (975/1000)),
       ("y_500", loopQuantCol draws (5/10))] := by
  have hy0 : ("y_" ++ toString (0:ℕ)) = "y_0" := rfl
  have hy1 : ("y_" ++ toString (1:ℕ)) = "y_1" := rfl
  have hy2 : ("y_" ++ toString (2:ℕ)) = "y_2" := rfl
  have hy3 : ("y_" ++ toString (3:ℕ)) = "y_3" := rfl
  have hy4 : ("y_" ++ toString (4:ℕ)) = "y_4" := rfl
  have hy5 : ("y_" ++ toString (5:ℕ)) = "y_5" := rfl
  have hrep6 : List.replicate 6 (none : Option ℚ) = [none, none, none, none, none, none] := rfl
  have hrep5 : List.replicate 5 (none : Option ℚ) = [none, none, none, none, none] := rfl
  have hs1 : ∀ (a b c d e f v : Option ℚ), [a,b,c,d,e,f].set 1 v = [a,v,c,d,e,f] :=
    fun _ _ _ _ _ _ _ => rfl
  have hs2 : ∀ (a b c d e f v : Option ℚ), [a,b,c,d,e,f].set 2 v = [a,b,v,d,e,f] :=
    fun _ _ _ _ _ _ _ => rfl
  have hs3 : ∀ (a b c d e f v : Option ℚ), [a,b,c,d,e,f].set 3 v = [a,b,c,v,e,f] :=
    fun _ _ _ _ _ _ _ => rfl
  have hs4 : ∀ (a b c d e f v : Option ℚ), [a,b,c,d,e,f].set 4 v = [a,b,c,d,v,f] :=
    fun _ _ _ _ _ _ _ => rfl
  have hs5 : ∀ (a b c d e f v : Option ℚ), [a,b,c,d,e,f].set 5 v = [a,b,c,d,e,v] :=
    fun _ _ _ _ _ _ _ => rfl
  have hr : List.range 6 = [0, 1, 2, 3, 4, 5] := rfl
  simp only [runSummary, hr, List.foldl_cons, List.foldl_nil,
    stepX, dfOfDraws, summaryInit, setCol, locSet, getColD, seriesQuantile,
    hy0, hy1, hy2, hy3, hy4, hy5, hrep6, hrep5, hs1, hs2, hs3, hs4, hs5,
    List.any_cons, List.any_nil, List.map_cons, List.map_nil, List.lookup,
    String.reduceBEq, String.reduceEq, Bool.or_false, Bool.false_or, Bool.or_true,
    Bool.true_or, List.cons_append, List.nil_append, Option.getD_some, Option.getD_none,
    colBin_map_replicate, colBin_map_map, filterMap_id_map_some, predSamples, List.set,
    Bool.false_eq_true, Bool.true_eq_false, if_true, if_false, ite_true, ite_false,
    reduceIte, loopQuantCol, Nat.cast_ofNat, Nat.cast_zero, Nat.cast_one]

/-- A non-empty draw set gives non-empty predictive samples. -/
theorem predSamples_ne_nil {draws : List Draw} (hne : draws ≠ []) (x : ℚ) :
    predSamples draws x ≠ [] := by
  simp [predSamples, hne]

/-- The loop's quantile column rewritten through the spec's estimator, for a
non-empty draw set and an in-range probability. -/
theorem loopQuantCol_eq_spec (draws : List Draw) (hne : draws ≠ []) (p : ℚ)
    (hp0 : 0 ≤ p) (hp1 : p ≤ 1) :
    loopQuantCol draws p =
      [some (specQuantile (draws.map fun d => d.alpha + d.beta * 0) p),
       some (specQuantile (draws.map fun d => d.alpha + d.beta * 1) p),
       some (specQuantile (draws.map fun d => d.alpha + d.beta * 2) p),
       some (specQuantile (draws.map fun d => d.alpha + d.beta * 3) p),
       some (specQuantile (draws.map fun d => d.alpha + d.beta * 4) p),
       some (specQuantile (draws.map fun d => d.alpha + d.beta * 5) p)] := by
  have h : ∀ x : ℚ, quantile (draws.map fun d => d.alpha + d.beta * x) p =
      specQuantile (draws.map fun d => d.alpha + d.beta * x) p := fun x =>
    quantile_eq_specQuantile (by simp [hne]) hp0 hp1
  simp only [loopQuantCol, predSamples]
  rw [h 0, h 1, h 2, h 3, h 4, h 5]

/-- The frame after the two `ci_*` assignment lines, in closed form. -/
theorem summaryWithCI_closed (draws : List Draw) :
    summaryWithCI draws =
      [("y_025", loopQuantCol draws (25/1000)),
       ("y_50", List.replicate 6 (none : Option ℚ)),
       ("y_975", loopQuantCol draws (975/1000)),
       ("y_500", loopQuantCol draws (5/10)),
       ("ci_lower_diff",
        colBin (· - ·) (loopQuantCol draws (25/1000)) (loopQuantCol draws (5/10))),
       ("ci_upper_diff",
        colBin (· - ·) (loopQuantCol draws (5/10)) (loopQuantCol draws (975/1000)))] := by
  simp only [summaryWithCI]
  rw [runSummary_summary_stan]
  simp only [setCol, getColD, List.lookup, List.map_cons, List.map_nil,
    List.any_cons, List.any_nil, String.reduceBEq, Bool.or_false, Bool.false_or,
    Bool.or_true, Bool.true_or, Option.getD_some, Option.getD_none,
    List.cons_append, List.nil_append, Bool.false_eq_true, Bool.true_eq_false,
    if_true, if_false, ite_true, ite_false, reduceIte]

/-! ### The claims -/

/-- C1: for every non-empty draw set, the loop computes each query point's
predictive samples as `alpha + beta * x` per draw (ignoring `sigma`), then
reduces them to the empirical quantiles at probabilities 0.025, 0.5 and
0.975 exactly as the spec words them, producing one (lower, median, upper)
value per query point `0..5`, in query-point order, in the columns the
scripts write (`y_025`, `y_500`, `y_975`). -/
theorem c1_rows_are_spec_quantiles_per_query_point (draws : List Draw)
    (hne : draws ≠ []) :
    getColD (runSummary draws).summary_stan "y_025" =
        (specSummaryTable draws [0, 1, 2, 3, 4, 5]).map (fun r => some r.1) ∧
      getColD (runSummary draws).summary_stan "y_500" =
        (specSummaryTable draws [0, 1, 2, 3, 4, 5]).map (fun r => some r.2.1) ∧
      getColD (runSummary draws).summary_stan "y_975" =
        (specSummaryTable draws [0, 1, 2, 3, 4, 5]).map (fun r => some r.2.2) := by
  rw [runSummary_summary_stan]
  refine ⟨?_, ?_, ?_⟩ <;>
    simp only [getColD, List.lookup, String.reduceBEq, Option.getD_some,
      specSummaryTable, List.map_cons, List.map_nil]
  · exact loopQuantCol_eq_spec draws hne (25/1000) (by norm_num) (by norm_num)
  · exact loopQuantCol_eq_spec draws hne (5/10) (by norm_num) (by norm_num)
  · exact loopQuantCol_eq_spec draws hne (975/1000) (by norm_num) (by norm_num)

/-- Witness for C1 at a concrete singleton draw set. -/
theorem c1_witness :
    getColD (runSummary [⟨0, 1, 1⟩]).summary_stan "y_025" =
        (specSummaryTable [⟨0, 1, 1⟩] [0, 1, 2, 3, 4, 5]).map (fun r => some r.1) ∧
      getColD (runSummary [⟨0, 1, 1⟩]).summary_stan "y_500" =
        (specSummaryTable [⟨0, 1, 1⟩] [0, 1, 2, 3, 4, 5]).map (fun r => some r.2.1) ∧
      getColD (runSummary [⟨0, 1, 1⟩]).summary_stan "y_975" =
        (specSummaryTable [⟨0, 1, 1⟩] [0, 1, 2, 3, 4, 5]).map (fun r => some r.2.2) :=
  c1_rows_are_spec_quantiles_per_query_point [⟨0, 1, 1⟩] (by decide)

/-- C2: on the concrete scenario — three draws with intercepts 0, 2, 4 and
slope 1, query points 0 and 1, coverage 0.5 — `summarize` returns the row
(lower 1, median 2, upper 3) at `x = 0` and (2, 3, 4) at `x = 1`. -/
theorem c2_scenario_coverage_half :
    summarize [⟨0, 1, 1⟩, ⟨2, 1, 1⟩, ⟨4, 1, 1⟩] [0, 1] (1/2) =
      .ok [(1, 2, 3), (2, 3, 4)] := by
  norm_num [summarize, summarizeRow, predSamples, quantile, interp,
    List.insertionSort, List.orderedInsert]

/-- C3: on every non-empty sample and probability in `[0,1]`, the quantile
the code uses equals the standard linear-interpolation estimator as the spec
words it (sort, `index = p * (n-1)`, interpolate between the adjacent order
statistics when the index is fractional); both sides operate on the raw
sample, ties retained. -/
theorem c3_quantile_is_linear_interpolation (l : List ℚ) (hl : l ≠ [])
    (p : ℚ) (hp0 : 0 ≤ p) (hp1 : p ≤ 1) :
    quantile l p = specQuantile l p :=
  quantile_eq_specQuantile hl hp0 hp1

/-- Witness for C3 at a concrete tied sample: the two estimators agree on
`[1, 1, 3]` at the median. -/
theorem c3_witness :
    quantile [1, 1, 3] (1/2) = specQuantile [1, 1, 3] (1/2) :=
  c3_quantile_is_linear_interpolation [1, 1, 3] (by decide) (1/2)
    (by norm_num) (by norm_num)

/-- C4: for every non-empty draw set and query point, the produced row is
ordered: lower ≤ median ≤ upper. -/
theorem c4_lower_le_median_le_upper (draws : List Draw) (hne : draws ≠ [])
    (x : ℚ) :
    (summaryRow draws x).1 ≤ (summaryRow draws x).2.1 ∧
      (summaryRow draws x).2.1 ≤ (summaryRow draws x).2.2 := by
  have hl : predSamples draws x ≠ [] := predSamples_ne_nil hne x
  constructor
  · exact quantile_mono hl (by norm_num) (by norm_num) (by norm_num)
  · exact quantile_mono hl (by norm_num) (by norm_num) (by norm_num)

/-- Witness for C4 at a concrete two-draw set and query point. -/
theorem c4_witness :
    (summaryRow [⟨0, 1, 1⟩, ⟨2, 1, 1⟩] 3).1 ≤ (summaryRow [⟨0, 1, 1⟩, ⟨2, 1, 1⟩] 3).2.1 ∧
      (summaryRow [⟨0, 1, 1⟩, ⟨2, 1, 1⟩] 3).2.1 ≤ (summaryRow [⟨0, 1, 1⟩, ⟨2, 1, 1⟩] 3).2.2 :=
  c4_lower_le_median_le_upper [⟨0, 1, 1⟩, ⟨2, 1, 1⟩] (by decide) 3

/-- C5: `summarize` fails with `InvalidInput` on an empty draw set or a
coverage outside the open interval (0,1) — checked before any computation —
and otherwise returns a full table, one row per query point: never a
partial table. -/
theorem c5_invalid_input_all_or_nothing (draws : List Draw) (qs : List ℚ)
    (c : ℚ) :
    (draws = [] ∨ c ≤ 0 ∨ 1 ≤ c →
      summarize draws qs c = .error .InvalidInput) ∧
      (∀ t, summarize draws qs c = .ok t → t.length = qs.length) := by
  constructor
  · intro h
    rcases h with h | h
    · subst h
      rfl
    · have hd : draws.isEmpty = true ∨ draws.isEmpty = false := by
        cases draws.isEmpty <;> simp
      rcases hd with hd | hd <;> simp [summarize, hd, h]
  · intro t ht
    simp only [summarize] at ht
    split at ht
    · cases ht
    · split at ht
      · cases ht
      · cases ht
        simp

/-- Witness for C5: the empty draw set and the boundary coverage 1.0 are
both rejected. -/
theorem c5_witness :
    summarize ([] : List Draw) [0] (1/2) = .error .InvalidInput ∧
      summarize [⟨0, 1, 1⟩] [0, 1] 1 = .error .InvalidInput :=
  ⟨(c5_invalid_input_all_or_nothing [] [0] (1/2)).1 (Or.inl rfl),
   (c5_invalid_input_all_or_nothing [⟨0, 1, 1⟩] [0, 1] 1).1
     (Or.inr (Or.inr le_rfl))⟩

/-- C6: a single-draw set degenerates every row to
lower = median = upper = `alpha + beta * x` of that draw. -/
theorem c6_singleton_draw_degenerate_row (d : Draw) (x : ℚ) :
    summaryRow [d] x =
      (d.alpha + d.beta * x, d.alpha + d.beta * x, d.alpha + d.beta * x) := by
  norm_num [summaryRow, predSamples, quantile, interp,
    List.insertionSort, List.orderedInsert]

/-- C7: for a fixed non-empty draw set and query point, growing the
coverage (within (0,1)) never shrinks the two-sided interval: the lower
bound does not rise and the upper bound does not fall. -/
theorem c7_interval_never_shrinks (draws : List Draw) (hne : draws ≠ [])
    (x : ℚ) (c c' : ℚ) (hc0 : 0 < c) (hcc : c ≤ c') (hc1 : c' < 1) :
    (summarizeRow draws c' x).1 ≤ (summarizeRow draws c x).1 ∧
      (summarizeRow draws c x).2.2 ≤ (summarizeRow draws c' x).2.2 := by
  have hl : predSamples draws x ≠ [] := predSamples_ne_nil hne x
  constructor
  · exact quantile_mono hl (by linarith) (by linarith) (by linarith)
  · exact quantile_mono hl (by linarith) (by linarith) (by linarith)

/-- Witness for C7 at a concrete draw set, query point and coverages
0.5 ≤ 0.9. -/
theorem c7_witness :
    (summarizeRow [⟨0, 1, 1⟩, ⟨2, 1, 1⟩, ⟨4, 1, 1⟩] (9/10) 1).1 ≤
        (summarizeRow [⟨0, 1, 1⟩, ⟨2, 1, 1⟩, ⟨4, 1, 1⟩] (1/2) 1).1 ∧
      (summarizeRow [⟨0, 1, 1⟩, ⟨2, 1, 1⟩, ⟨4, 1, 1⟩] (1/2) 1).2.2 ≤
        (summarizeRow [⟨0, 1, 1⟩, ⟨2, 1, 1⟩, ⟨4, 1, 1⟩] (9/10) 1).2.2 :=
  c7_interval_never_shrinks [⟨0, 1, 1⟩, ⟨2, 1, 1⟩, ⟨4, 1, 1⟩] (by decide) 1
    (1/2) (9/10) (by norm_num) (by norm_num) (by norm_num)

/-- C8: summarization is deterministic — identical draw sets, query points
and coverage give identical output, both for the spec's `summarize` and for
the scripts' DataFrame pipeline. -/
theorem c8_deterministic (d1 d2 : List Draw) (q1 q2 : List ℚ) (c1 c2 : ℚ)
    (hd : d1 = d2) (hq : q1 = q2) (hc : c1 = c2) :
    summarize d1 q1 c1 = summarize d2 q2 c2 ∧
      summaryWithCI d1 = summaryWithCI d2 := by
  subst hd
  subst hq
  subst hc
  exact ⟨rfl, rfl⟩

/-- Witness for C8 at a concrete repeated call. -/
theorem c8_witness :
    summarize [⟨0, 1, 1⟩] [0] (1/2) = summarize [⟨0, 1, 1⟩] [0] (1/2) ∧
      summaryWithCI [⟨0, 1, 1⟩] = summaryWithCI [⟨0, 1, 1⟩] :=
  c8_deterministic [⟨0, 1, 1⟩] [⟨0, 1, 1⟩] [0] [0] (1/2) (1/2) rfl rfl rfl

/-- C9: the summarization loop never mutates the input draw table: the loop
writes only into the copy `pred_df_stan` and into `summary_stan`, and
`stan_results` is unchanged after the whole loop. -/
theorem c9_input_draws_not_mutated (draws : List Draw) :
    (runSummary draws).stan_results = draws := by
  have hfold : ∀ (xs : List ℕ) (st : ScriptState),
      (xs.foldl (stepX draws.length) st).stan_results = st.stan_results := by
    intro xs
    induction xs with
    | nil => intro st; rfl
    | cons x t ih =>
        intro st
        rw [List.foldl_cons, ih]
        rfl
  exact hfold (List.range 6) _

/-- C10: the output table declares a `y_50` column that is never assigned
and stays entirely missing, while the computed medians live in the
loc-created `y_500` column; the later consumers — the `ci_*` error-bar
columns and the `plt.errorbar` centre series — read `y_500`, not `y_50`. -/
theorem c10_y50_missing_y500_holds_medians (draws : List Draw) :
    (summaryWithCI draws).map Prod.fst =
        ["y_025", "y_50", "y_975", "y_500", "ci_lower_diff", "ci_upper_diff"] ∧
      getColD (summaryWithCI draws) "y_50" = List.replicate 6 (none : Option ℚ) ∧
      getColD (summaryWithCI draws) "y_500" = loopQuantCol draws (5/10) ∧
      errorbarCenters draws = loopQuantCol draws (5/10) ∧
      getColD (summaryWithCI draws) "ci_lower_diff" =
        colBin (· - ·) (loopQuantCol draws (25/1000)) (loopQuantCol draws (5/10)) ∧
      getColD (summaryWithCI draws) "ci_upper_diff" =
        colBin (· - ·) (loopQuantCol draws (5/10)) (loopQuantCol draws (975/1000)) := by
  have h := summaryWithCI_closed draws
  refine ⟨?_, ?_, ?_, ?_, ?_, ?_⟩
  · rw [h]
    rfl
  · rw [h]
    rfl
  · rw [h]
    rfl
  · show getColD (summaryWithCI draws) "y_500" = loopQuantCol draws (5/10)
    rw [h]
    rfl
  · rw [h]
    rfl
  · rw [h]
    rfl

end PystanTutorial
